import Mathlib

/-!
Verification development for the SysView terminal dashboard.

The definitions below are a shallow embedding of the Python sources:
`sysview/system.py` (history and delta engine), `sysview/draw.py`
(panel composer, graph rendering, process table) and
`sysview/__main__.py` (interaction state machine and render loop).
Machine floats are modelled as rationals, Python lists/deques as Lean
lists, dictionaries as association lists, and a raised exception
(ZeroDivisionError) as `Except.error`.
-/

set_option maxHeartbeats 1000000
set_option maxRecDepth 8000

/-- Model of `collections.deque(maxlen := m)` append: the new element is
added on the right and, when the capacity is exceeded, the oldest element
is evicted on the left. -/
def dequeAppend (m : Nat) (buf : List α) (x : α) : List α :=
  let b := buf ++ [x]
  if m < b.length then b.drop (b.length - m) else b

/-- Python `max(xs)` on a list; `max` of the empty list raises in Python,
the `0` result is never used because every call site guards for emptiness. -/
def pyMax : List ℚ → ℚ
  | [] => 0
  | x :: xs => xs.foldl max x

/-- Python `int(x)` on a float: truncation toward zero. -/
def pyInt (q : ℚ) : ℤ :=
  if 0 ≤ q then ⌊q⌋ else ⌈q⌉

/-- Cumulative counters returned by `psutil.net_io_counters()`. -/
structure NetCounters where
  bytes_sent : ℤ
  bytes_recv : ℤ
  packets_sent : ℤ
  packets_recv : ℤ
deriving DecidableEq

/-- The mutable state of `SystemStats` (system.py, `__init__`): rolling
histories, the per-process CPU history dictionary, the previous network
counters and timestamp, and the two peak speeds. -/
structure EngineState where
  cpu_history : List ℚ
  memory_history : List ℚ
  net_history : List (ℚ × ℚ)
  process_cpu_history : List (Nat × List ℚ)
  prev_net_io : NetCounters
  prev_time : ℚ
  peak_send_speed : ℚ
  peak_recv_speed : ℚ
deriving DecidableEq

/-- `SystemStats.__init__`: empty histories, zero peaks, and the initial
counters/timestamp sampled at construction time. -/
def initialEngine (io0 : NetCounters) (t0 : ℚ) : EngineState :=
  { cpu_history := []
    memory_history := []
    net_history := []
    process_cpu_history := []
    prev_net_io := io0
    prev_time := t0
    peak_send_speed := 0
    peak_recv_speed := 0 }

/-- Inputs that `get_cpu_stats` reads from psutil during one call. -/
structure CpuSample where
  cpu_percent : ℚ
  per_cpu : List ℚ
  freq_current : ℚ
  freq_min : ℚ
  freq_max : ℚ
  temp : Option ℚ
deriving DecidableEq

/-- The dictionary returned by `get_cpu_stats`. -/
structure CpuStats where
  total : ℚ
  per_cpu : List ℚ
  freq_current : ℚ
  freq_min : ℚ
  freq_max : ℚ
  temp : Option ℚ
  history : List ℚ
deriving DecidableEq

/-- `SystemStats.get_cpu_stats` (system.py lines 26-62): append the total
percentage to the CPU history and return it with the raw sample. -/
def get_cpu_stats (st : EngineState) (s : CpuSample) : EngineState × CpuStats :=
  let hist := dequeAppend 100 st.cpu_history s.cpu_percent
  ({ st with cpu_history := hist },
   { total := s.cpu_percent
     per_cpu := s.per_cpu
     freq_current := s.freq_current
     freq_min := s.freq_min
     freq_max := s.freq_max
     temp := s.temp
     history := hist })

/-- Inputs that `get_memory_stats` reads from psutil. -/
structure MemSample where
  total : ℤ
  available : ℤ
  used : ℤ
  free : ℤ
  percent : ℚ
  cached : Option ℤ
  buffers : Option ℤ
  swap_total : ℤ
  swap_used : ℤ
  swap_free : ℤ
  swap_percent : ℚ
deriving DecidableEq

/-- The dictionary returned by `get_memory_stats`. -/
structure MemStats where
  total : ℤ
  available : ℤ
  used : ℤ
  free : ℤ
  percent : ℚ
  cached : Option ℤ
  buffers : Option ℤ
  swap_total : ℤ
  swap_used : ℤ
  swap_free : ℤ
  swap_percent : ℚ
  history : List ℚ
deriving DecidableEq

/-- `SystemStats.get_memory_stats` (system.py lines 64-87): append the
percentage to the memory history.  The source then guards
`if len(...) > 100: pop(0)`; the deque already caps the length at 100,
so the guard is unreachable (shown by `dequeAppend_length` below) and is
kept here as the dead conditional it is. -/
def get_memory_stats (st : EngineState) (s : MemSample) : EngineState × MemStats :=
  let hist := dequeAppend 100 st.memory_history s.percent
  let hist := if 100 < hist.length then hist.drop 1 else hist
  ({ st with memory_history := hist },
   { total := s.total
     available := s.available
     used := s.used
     free := s.free
     percent := s.percent
     cached := s.cached
     buffers := s.buffers
     swap_total := s.swap_total
     swap_used := s.swap_used
     swap_free := s.swap_free
     swap_percent := s.swap_percent
     history := hist })

/-- The dictionary returned by `get_network_stats`. -/
structure NetStats where
  bytes_sent : ℤ
  bytes_recv : ℤ
  packets_sent : ℤ
  packets_recv : ℤ
  send_speed : ℚ
  recv_speed : ℚ
  peak_send_speed : ℚ
  peak_recv_speed : ℚ
  history : List (ℚ × ℚ)
deriving DecidableEq

/-- `SystemStats.get_network_stats` (system.py lines 201-237): derive the
send/receive rates from the counter deltas and the wall-clock delta,
update the peaks with `max`, append the rate pair to the history and
store the current counters/timestamp as the new previous state.
The source divides by `time_delta` unconditionally; when the elapsed
time is zero Python raises `ZeroDivisionError`, modelled as
`Except.error ()`.  The `if len > 100: pop(0)` guard after the history
append is unreachable, as in `get_memory_stats`. -/
def get_network_stats (st : EngineState) (cur : NetCounters) (now : ℚ) :
    Except Unit (EngineState × NetStats) :=
  let timeDelta := now - st.prev_time
  let bytesSent := cur.bytes_sent - st.prev_net_io.bytes_sent
  let bytesRecv := cur.bytes_recv - st.prev_net_io.bytes_recv
  if timeDelta = 0 then Except.error ()
  else
    let sendSpeed : ℚ := (bytesSent : ℚ) / timeDelta
    let recvSpeed : ℚ := (bytesRecv : ℚ) / timeDelta
    let peakSend := max st.peak_send_speed sendSpeed
    let peakRecv := max st.peak_recv_speed recvSpeed
    let hist := dequeAppend 100 st.net_history (sendSpeed, recvSpeed)
    let hist := if 100 < hist.length then hist.drop 1 else hist
    Except.ok
      ({ st with
          prev_net_io := cur
          prev_time := now
          peak_send_speed := peakSend
          peak_recv_speed := peakRecv
          net_history := hist },
       { bytes_sent := cur.bytes_sent
         bytes_recv := cur.bytes_recv
         packets_sent := cur.packets_sent
         packets_recv := cur.packets_recv
         send_speed := sendSpeed
         recv_speed := recvSpeed
         peak_send_speed := peakSend
         peak_recv_speed := peakRecv
         history := hist })

/-- One network ingest as seen by the render loop: on success the engine
state advances, a `ZeroDivisionError` would abort the tick, leaving the
prior state. -/
def netStep (st : EngineState) (s : NetCounters × ℚ) : EngineState :=
  match get_network_stats st s.1 s.2 with
  | Except.ok r => r.1
  | Except.error _ => st

/-- Engine states visited over a sequence of network samples. -/
def netStates (st : EngineState) (samples : List (NetCounters × ℚ)) : List EngineState :=
  samples.scanl netStep st

/-- Ingest a sequence of CPU percentage samples. -/
def ingestCpuSeq (st : EngineState) (xs : List ℚ) : EngineState :=
  xs.foldl
    (fun e c =>
      (get_cpu_stats e
        { cpu_percent := c, per_cpu := [], freq_current := 0,
          freq_min := 0, freq_max := 0, temp := none }).1)
    st

/-- Ingest a sequence of memory percentage samples. -/
def ingestMemSeq (st : EngineState) (xs : List ℚ) : EngineState :=
  xs.foldl
    (fun e c =>
      (get_memory_stats e
        { total := 0, available := 0, used := 0, free := 0, percent := c,
          cached := none, buffers := none, swap_total := 0, swap_used := 0,
          swap_free := 0, swap_percent := 0 }).1)
    st

/-- Per-process data read from one `psutil.process_iter` entry. -/
structure ProcSample where
  pid : Nat
  name : String
  cpu_percent : ℚ
  memory_percent : ℚ
  status : String
  num_threads : Option Nat
  mem_info : Option (ℤ × ℤ)
  cmdline : Option String
deriving DecidableEq

/-- One row of the dictionary list returned by `get_process_stats`. -/
structure ProcStats where
  pid : Nat
  name : String
  cpu_percent : ℚ
  memory_percent : ℚ
  status : String
  num_threads : Option Nat
  cpu_history : List ℚ
  memory_rss : ℤ
  memory_vms : ℤ
  cmdline : String
deriving DecidableEq

/-- Lookup in the per-process history dictionary. -/
def alLookup (m : List (Nat × List ℚ)) (pid : Nat) : Option (List ℚ) :=
  (m.find? (fun e => e.1 == pid)).map (fun e => e.2)

/-- `self.process_cpu_history[pid].append(cpu)`, creating a fresh
10-sample deque for a pid seen for the first time (dict insertion order:
new keys go to the end). -/
def alUpdate (m : List (Nat × List ℚ)) (pid : Nat) (cpu : ℚ) : List (Nat × List ℚ) :=
  if m.any (fun e => e.1 == pid) then
    m.map (fun e => if e.1 == pid then (e.1, dequeAppend 10 e.2 cpu) else e)
  else
    m ++ [(pid, dequeAppend 10 [] cpu)]

/-- `SystemStats.get_process_stats` (system.py lines 239-280): append each
process's CPU percentage to its private 10-sample history, attach that
history (and the memory/cmdline fields, which degrade to `0`/`""` when
unavailable) to the output row, then garbage-collect history entries for
pids absent from the new snapshot. -/
def get_process_stats (st : EngineState) (procs : List ProcSample) :
    EngineState × List ProcStats :=
  let step := fun (acc : List (Nat × List ℚ) × List ProcStats) (p : ProcSample) =>
    let m := alUpdate acc.1 p.pid p.cpu_percent
    let hist := (alLookup m p.pid).getD []
    (m, acc.2 ++
      [{ pid := p.pid
         name := p.name
         cpu_percent := p.cpu_percent
         memory_percent := p.memory_percent
         status := p.status
         num_threads := p.num_threads
         cpu_history := hist
         memory_rss := (p.mem_info.map (fun mi => mi.1)).getD 0
         memory_vms := (p.mem_info.map (fun mi => mi.2)).getD 0
         cmdline := p.cmdline.getD "" }])
  let res := procs.foldl step (st.process_cpu_history, [])
  let currentPids := procs.map (fun p => p.pid)
  ({ st with process_cpu_history := res.1.filter (fun e => currentPids.contains e.1) },
   res.2)

/-- One row of `get_disk_stats` output (pure pass-through of psutil data). -/
structure DiskSample where
  mountpoint : String
  fstype : String
  dtype : String
  total : ℤ
  used : ℤ
  free : ℤ
  percent : ℚ
deriving DecidableEq

/-- `get_system_info` output (pure pass-through). -/
structure SysInfo where
  hostname : String
  platform : String
  uptime : ℚ
deriving DecidableEq

/-- `get_battery_info` output when a battery is present. -/
structure BatteryInfo where
  percent : ℚ
  power_plugged : Bool
  seconds_left : Option ℚ
deriving DecidableEq

/-- The raw data one render tick would pull from psutil. -/
structure TickSample where
  cpu : CpuSample
  mem : MemSample
  disks : List DiskSample
  net : NetCounters
  now : ℚ
  procs : List ProcSample
  sysinfo : SysInfo
  battery : Option BatteryInfo
deriving DecidableEq

/-- `SysView.cached_stats`: the cached snapshot, `none` per domain until
the first refresh. -/
structure Snapshot where
  cpu : Option CpuStats
  memory : Option MemStats
  disk : Option (List DiskSample)
  network : Option NetStats
  processes : Option (List ProcStats)
  system : Option SysInfo
  battery : Option (Option BatteryInfo)
deriving DecidableEq

/-- Initial `cached_stats` dictionary: every domain `None`. -/
def initialCache : Snapshot :=
  { cpu := none, memory := none, disk := none, network := none,
    processes := none, system := none, battery := none }

/-- The data-refresh step of `SysView.update` (main module lines 211-232):
when not paused, every getter runs in source order and the cache is
replaced; when paused, nothing runs and the cached snapshot is reused
unmodified.  A `ZeroDivisionError` from the network getter propagates. -/
def updateTick (paused : Bool) (eng : EngineState) (cache : Snapshot)
    (inp : TickSample) : Except Unit (EngineState × Snapshot) :=
  if ¬ paused then
    let rc := get_cpu_stats eng inp.cpu
    let rm := get_memory_stats rc.1 inp.mem
    match get_network_stats rm.1 inp.net inp.now with
    | Except.error e => Except.error e
    | Except.ok rn =>
      let rp := get_process_stats rn.1 inp.procs
      Except.ok
        (rp.1,
         { cpu := some rc.2
           memory := some rm.2
           disk := some inp.disks
           network := some rn.2
           processes := some rp.2
           system := some inp.sysinfo
           battery := some inp.battery })
  else Except.ok (eng, cache)

/-- The recognised values of the `graph_symbol` configuration option
(config.py: "braille, block, or tty"). -/
inductive GraphSymbol
  | braille
  | block
  | tty
deriving DecidableEq

/-- `Drawer.BRAILLE_CHARS` (draw.py lines 14-23). -/
def brailleChars : List Char :=
  ['⠀', '⠁', '⠂', '⠃', '⠄', '⠅', '⠆', '⠇',
   '⠈', '⠉', '⠊', '⠋', '⠌', '⠍', '⠎', '⠏',
   '⠐', '⠑', '⠒', '⠓', '⠔', '⠕', '⠖', '⠗',
   '⠘', '⠙', '⠚', '⠛', '⠜', '⠝', '⠞', '⠟',
   '⠠', '⠡', '⠢', '⠣', '⠤', '⠥', '⠦', '⠧',
   '⠨', '⠩', '⠪', '⠫', '⠬', '⠭', '⠮', '⠯',
   '⠰', '⠱', '⠲', '⠳', '⠴', '⠵', '⠶', '⠷',
   '⠸', '⠹', '⠺', '⠻', '⠼', '⠽', '⠾', '⠿']

/-- `Drawer.BLOCK_CHARS` (draw.py line 25). -/
def blockChars : List Char := ['▁', '▂', '▃', '▄', '▅', '▆', '▇', '█']

/-- `Drawer.TTY_CHARS` (draw.py line 26). -/
def ttyChars : List Char := ['_', '▄', '█']

/-- `self.graph_chars[graph_type]` (draw.py lines 31-35, 72-73). -/
def graphCharsList : GraphSymbol → List Char
  | GraphSymbol.braille => brailleChars
  | GraphSymbol.block => blockChars
  | GraphSymbol.tty => ttyChars

/-- `chars[-1]`, the glyph used for a filled cell. -/
def filledChar (sym : GraphSymbol) : Char := (graphCharsList sym).getLastD ' '

/-- `chars[0]`, the glyph used for an unfilled cell. -/
def emptyChar (sym : GraphSymbol) : Char := (graphCharsList sym).headD ' '

/-- `[" " * width] * height`: the blank grid returned for an empty or
all-zero series. -/
def blankGrid (width height : Nat) : List String :=
  List.replicate height (String.mk (List.replicate width ' '))

/-- `values_list[-width:]` when the series is longer than the width. -/
def truncVals (values : List ℚ) (width : Nat) : List ℚ :=
  if width < values.length then values.drop (values.length - width) else values

/-- `[0] * (width - len(values_list)) + values_list`: left-pad with zeros. -/
def padVals (values : List ℚ) (width : Nat) : List ℚ :=
  List.replicate (width - values.length) 0 ++ values

/-- `min(height - 1, int((v / max_val) * height))`. -/
def levelOf (maxVal : ℚ) (height : Nat) (v : ℚ) : ℤ :=
  min ((height : ℤ) - 1) (pyInt (v / maxVal * (height : ℚ)))

/-- The nested render loop of `create_graph`: rows from `y = height - 1`
down to `y = 0`, a filled glyph wherever `normalized[x] >= y`. -/
def renderRows (chars : List Char) (normalized : List ℤ) (width height : Nat) : List String :=
  ((List.range height).reverse).map (fun (y : Nat) =>
    String.mk ((List.range width).map (fun (x : Nat) =>
      if (y : ℤ) ≤ normalized.getD x 0 then chars.getLastD ' ' else chars.headD ' ')))

/-- `Drawer.create_graph` (draw.py lines 70-106): empty series → blank
grid; keep only the last `width` values; all-zero window (max = 0) →
blank grid; otherwise left-pad with zeros, normalize each value to a
level and render the glyph grid. -/
def createGraph (sym : GraphSymbol) (values : List ℚ) (width height : Nat) : List String :=
  if values.isEmpty then blankGrid width height
  else
    let valuesList := truncVals values width
    let maxVal := pyMax valuesList
    if maxVal = 0 then blankGrid width height
    else
      renderRows (graphCharsList sym)
        ((padVals valuesList width).map (levelOf maxVal height)) width height

/-- The view state owned by `SysView` (main module `__init__`,
lines 27-38): the interaction state machine's fields. -/
structure UIState where
  running : Bool
  paused : Bool
  overlay : Option String
  process_sort_key : String
  process_sort_reverse : Bool
  process_filter : String
  filter_buffer : String
  process_scroll : Nat
  current_layout : ℤ
deriving DecidableEq

/-- The view state constructed by `SysView.__init__`. -/
def initialUI : UIState :=
  { running := true
    paused := false
    overlay := none
    process_sort_key := "cpu_percent"
    process_sort_reverse := true
    process_filter := ""
    filter_buffer := ""
    process_scroll := 0
    current_layout := 0 }

/-- `SysView.scroll_processes` (lines 127-129): add the delta and clamp
at zero. -/
def scroll_processes (st : UIState) (delta : ℤ) : UIState :=
  { st with process_scroll := (max 0 ((st.process_scroll : ℤ) + delta)).toNat }

/-- `SysView.toggle_pause` (lines 166-168). -/
def toggle_pause (st : UIState) : UIState := { st with paused := !st.paused }

/-- `SysView.toggle_help` (lines 135-150): close the help overlay if it
is open, otherwise show it (replacing any other overlay). -/
def toggle_help (st : UIState) : UIState :=
  if st.overlay = some "help" then { st with overlay := none }
  else { st with overlay := some "help" }

/-- `SysView.toggle_menu` (lines 152-164). -/
def toggle_menu (st : UIState) : UIState :=
  if st.overlay = some "menu" then { st with overlay := none }
  else { st with overlay := some "menu" }

/-- `SysView.toggle_sort` (lines 170-175): flip the sort key between
`cpu_percent` and `memory_percent`. -/
def toggle_sort (st : UIState) : UIState :=
  if st.process_sort_key = "cpu_percent" then
    { st with process_sort_key := "memory_percent" }
  else
    { st with process_sort_key := "cpu_percent" }

/-- `SysView.toggle_process_filter` (lines 177-189). -/
def toggle_process_filter (st : UIState) : UIState :=
  if st.overlay = some "filter" then { st with overlay := none }
  else { st with overlay := some "filter" }

/-- `SysView.change_layout` (lines 203-209): the index is assigned
unconditionally; the bounds check against the configured presets guards
only the (empty) "apply layout configuration" step. -/
def change_layout (presets : List String) (st : UIState) (layout_num : ℤ) : UIState :=
  let st' := { st with current_layout := layout_num - 1 }
  if 0 ≤ st'.current_layout ∧ st'.current_layout < (presets.length : ℤ) then st' else st'

/-- A decoded keyboard event: a character key, or one of the four special
arrow/page keys handled via the `b'\xe0'` prefix. -/
inductive Key
  | ch (c : Char)
  | up
  | down
  | pageUp
  | pageDown
deriving DecidableEq

/-- The character-key dispatch of `SysView.handle_keyboard`
(lines 98-123): the key is lowercased, the global hotkeys are tested
first, and only a key that matches none of them reaches the
filter-overlay branch. -/
def handleChar (presets : List String) (st : UIState) (c0 : Char) : UIState :=
  let key := c0.toLower
  if key = 'q' then { st with running := false }
  else if key = 'p' then toggle_pause st
  else if key = 'h' then toggle_help st
  else if key = 'm' then toggle_menu st
  else if key = 's' then toggle_sort st
  else if key = 'f' then toggle_process_filter st
  else if key = '1' ∨ key = '2' ∨ key = '3' ∨ key = '4' ∨ key = '5' then
    change_layout presets st ((key.toNat - '0'.toNat : Nat) : ℤ)
  else if st.overlay = some "filter" then
    if key = '\r' then { st with process_filter := st.filter_buffer, overlay := none }
    else if key = '\x1b' then { st with overlay := none }
    else if key = '\x08' then { st with filter_buffer := st.filter_buffer.dropRight 1 }
    else { st with filter_buffer := st.filter_buffer.push key }
  else st

/-- `SysView.handle_keyboard` (lines 83-125) for one decoded key event. -/
def handle_key (presets : List String) (st : UIState) : Key → UIState
  | Key.up => scroll_processes st (-1)
  | Key.down => scroll_processes st 1
  | Key.pageUp => scroll_processes st (-10)
  | Key.pageDown => scroll_processes st 10
  | Key.ch c => handleChar presets st c

/-- Feed a sequence of key events to the state machine. -/
def runKeys (presets : List String) (st : UIState) (ks : List Key) : UIState :=
  ks.foldl (handle_key presets) st

/-- Stable insertion into a descending-sorted list: the new element goes
in front of the first element whose key is not larger. -/
def insertByDesc (key : α → ℚ) (x : α) : List α → List α
  | [] => [x]
  | y :: ys => if key y ≤ key x then x :: y :: ys else y :: insertByDesc key x ys

/-- Python's stable `sorted(stats, key := key, reverse := True)`:
descending by key, ties keep their original order. -/
def sortByDesc (key : α → ℚ) : List α → List α
  | [] => []
  | x :: xs => insertByDesc key x (sortByDesc key xs)

/-- The filter step of `SysView.update` (lines 276-277): when the filter
text is nonempty, keep the processes whose lowercased name contains the
lowercased filter as a substring. -/
def filterProcs (filt : String) (ps : List ProcStats) : List ProcStats :=
  if filt = "" then ps
  else ps.filter (fun p => decide (filt.toLower.toList <:+: p.name.toLower.toList))

/-- The data selection of `Drawer.draw_processes` (draw.py lines
353-375): sort by `cpu_percent` descending (the sort-key state is not
consulted), take the 30-row window at the scroll position, and re-clamp
the window only when the start index has run past the end of the list.
Returns the visible rows and the `(start_idx, end_idx)` pair. -/
def draw_processes (stats : List ProcStats) (scroll_position : Nat) :
    List ProcStats × Nat × Nat :=
  let sorted_procs := sortByDesc (fun p => p.cpu_percent) stats
  let start_idx := scroll_position
  let end_idx := min (start_idx + 30) sorted_procs.length
  let se : Nat × Nat :=
    if sorted_procs.length ≤ start_idx then
      (sorted_procs.length - 30, sorted_procs.length)
    else (start_idx, end_idx)
  ((sorted_procs.drop se.1).take (se.2 - se.1), se.1, se.2)

/-- `procA`, `procB`: two concrete process rows used as test fixtures.
`procA` is memory-heavy, `procB` is CPU-heavy. -/
def procA : ProcStats :=
  { pid := 1, name := "a", cpu_percent := 10, memory_percent := 90, status := "running",
    num_threads := some 1, cpu_history := [], memory_rss := 0, memory_vms := 0, cmdline := "" }

/-- CPU-heavy fixture row. -/
def procB : ProcStats :=
  { pid := 2, name := "b", cpu_percent := 90, memory_percent := 10, status := "running",
    num_threads := some 1, cpu_history := [], memory_rss := 0, memory_vms := 0, cmdline := "" }

/-- A process list of length `n` (all rows identical, so any stable sort
leaves it unchanged). -/
def dummyProcs (n : Nat) : List ProcStats := List.replicate n procA

/-- Network samples delivering send/recv rates 10, 50, 30, 80, 20 at one
second intervals from counters starting at zero. -/
def rateSamples : List (NetCounters × ℚ) :=
  [(⟨10, 10, 0, 0⟩, 1), (⟨60, 60, 0, 0⟩, 2), (⟨90, 90, 0, 0⟩, 3),
   (⟨170, 170, 0, 0⟩, 4), (⟨190, 190, 0, 0⟩, 5)]

/-- Key traces for the filter scenario of the spec: open the filter with
`f`, type "ssh", confirm with Enter / cancel with Escape. -/
def sshEnterKeys : List Key :=
  [Key.ch 'f', Key.ch 's', Key.ch 's', Key.ch 'h', Key.ch '\r']

/-- The same trace ended with Escape instead of Enter. -/
def sshEscKeys : List Key :=
  [Key.ch 'f', Key.ch 's', Key.ch 's', Key.ch 'h', Key.ch '\x1b']

/-- Engine state after ingesting counters (10,10) at time 1 from the
zero initial state. -/
def c7wState : EngineState :=
  { cpu_history := [], memory_history := [], net_history := [(10, 10)],
    process_cpu_history := [], prev_net_io := ⟨10, 10, 0, 0⟩, prev_time := 1,
    peak_send_speed := 10, peak_recv_speed := 10 }

/-- Network stats returned by that ingest. -/
def c7wStats : NetStats :=
  { bytes_sent := 10, bytes_recv := 10, packets_sent := 0, packets_recv := 0,
    send_speed := 10, recv_speed := 10, peak_send_speed := 10, peak_recv_speed := 10,
    history := [(10, 10)] }

section Lemmas

theorem dequeAppend_eq (m : Nat) (buf : List α) (x : α) :
    dequeAppend m buf x = (buf ++ [x]).drop (buf.length + 1 - m) := by
  unfold dequeAppend
  by_cases h : m < (buf ++ [x]).length
  · simp only [if_pos h]
    simp [List.length_append] at h ⊢
  · simp only [if_neg h]
    simp [List.length_append] at h
    have : buf.length + 1 - m = 0 := by omega
    rw [this, List.drop_zero]

theorem dequeAppend_length (m : Nat) (buf : List α) (x : α) :
    (dequeAppend m buf x).length = min (buf.length + 1) m := by
  rw [dequeAppend_eq, List.length_drop, List.length_append]
  simp
  omega

theorem dequeAppend_length_le (buf : List α) (x : α) :
    (dequeAppend 100 buf x).length ≤ 100 := by
  rw [dequeAppend_length]
  omega

theorem deadPop_eq (l : List α) (h : l.length ≤ 100) :
    (if 100 < l.length then l.drop 1 else l) = l := by
  rw [if_neg (by omega)]

theorem foldl_dequeAppend (xs : List α) :
    xs.foldl (dequeAppend 100) [] = xs.drop (xs.length - 100) := by
  induction xs using List.reverseRecOn with
  | nil => simp
  | append_singleton xs x ih =>
    rw [List.foldl_append, List.foldl_cons, List.foldl_nil, ih, dequeAppend_eq]
    have hk : xs.length - 100 ≤ xs.length := by omega
    rw [← List.drop_append_of_le_length hk, List.drop_drop]
    have hlen : (xs.drop (xs.length - 100)).length = xs.length - (xs.length - 100) :=
      List.length_drop _ _
    rw [hlen]
    congr 1
    simp [List.length_append]
    omega

theorem ingestCpuSeq_history (xs : List ℚ) :
    ∀ st : EngineState,
      (ingestCpuSeq st xs).cpu_history = xs.foldl (dequeAppend 100) st.cpu_history := by
  induction xs with
  | nil => intro st; simp [ingestCpuSeq]
  | cons x xs ih =>
    intro st
    simp only [ingestCpuSeq, List.foldl_cons] at *
    rw [ih]
    rfl

theorem ingestMemSeq_history (xs : List ℚ) :
    ∀ st : EngineState,
      (ingestMemSeq st xs).memory_history = xs.foldl (dequeAppend 100) st.memory_history := by
  induction xs with
  | nil => intro st; simp [ingestMemSeq]
  | cons x xs ih =>
    intro st
    simp only [ingestMemSeq, List.foldl_cons] at *
    rw [ih]
    simp only [get_memory_stats]
    rw [deadPop_eq _ (dequeAppend_length_le _ _)]

theorem pyInt_of_nonneg (q : ℚ) (h : 0 ≤ q) : pyInt q = ⌊q⌋ := if_pos h

theorem le_foldl_max (xs : List ℚ) : ∀ a : ℚ, a ≤ xs.foldl max a := by
  induction xs with
  | nil => intro a; simp
  | cons x xs ih =>
    intro a
    calc a ≤ max a x := le_max_left _ _
    _ ≤ xs.foldl max (max a x) := ih _
    _ = (x :: xs).foldl max a := by simp

theorem mem_le_foldl_max (xs : List ℚ) :
    ∀ a v : ℚ, v ∈ xs → v ≤ xs.foldl max a := by
  induction xs with
  | nil => intro a v hv; simp at hv
  | cons x xs ih =>
    intro a v hv
    rcases List.mem_cons.mp hv with h | h
    · subst h
      calc v ≤ max a v := le_max_right _ _
      _ ≤ xs.foldl max (max a v) := le_foldl_max _ _
      _ = (v :: xs).foldl max a := by simp
    · exact ih (max a x) v h

theorem foldl_max_le (xs : List ℚ) :
    ∀ a M : ℚ, a ≤ M → (∀ v ∈ xs, v ≤ M) → xs.foldl max a ≤ M := by
  induction xs with
  | nil => intro a M ha _; simpa
  | cons x xs ih =>
    intro a M ha hall
    simp only [List.foldl_cons]
    exact ih _ M (max_le ha (hall x (by simp))) (fun v hv => hall v (by simp [hv]))

theorem mem_le_pyMax (l : List ℚ) (v : ℚ) (hv : v ∈ l) : v ≤ pyMax l := by
  cases l with
  | nil => simp at hv
  | cons x xs =>
    rcases List.mem_cons.mp hv with h | h
    · subst h; exact le_foldl_max _ _
    · exact mem_le_foldl_max _ _ _ h

theorem pyMax_eq (l : List ℚ) (M : ℚ) (hmem : M ∈ l) (hub : ∀ v ∈ l, v ≤ M) :
    pyMax l = M := by
  refine le_antisymm ?_ (mem_le_pyMax l M hmem)
  cases l with
  | nil => simp at hmem
  | cons x xs =>
    exact foldl_max_le xs x M (hub x (by simp)) (fun v hv => hub v (by simp [hv]))

theorem pyMax_of_all_zero (l : List ℚ) (h : ∀ v ∈ l, v = 0) : pyMax l = 0 := by
  cases l with
  | nil => rfl
  | cons x xs =>
    apply pyMax_eq _ 0 _ (fun v hv => le_of_eq (h v hv))
    have hx := h x (by simp)
    rw [← hx]
    simp

theorem getD_map_of_lt (f : α → β) (l : List α) (x : Nat) (d : α) (d' : β)
    (hx : x < l.length) : (l.map f).getD x d' = f (l.getD x d) := by
  rw [List.getD_eq_getElem?_getD, List.getElem?_map,
    List.getElem?_eq_getElem hx, List.getD_eq_getElem?_getD,
    List.getElem?_eq_getElem hx]
  rfl

theorem renderRows_getD (chars : List Char) (lv : List ℤ) (w h i : Nat) (hi : i < h) :
    (renderRows chars lv w h).getD i "" =
      String.mk ((List.range w).map (fun x =>
        if ((h - 1 - i : Nat) : ℤ) ≤ lv.getD x 0 then chars.getLastD ' '
        else chars.headD ' ')) := by
  unfold renderRows
  rw [List.getD_eq_getElem?_getD, List.getElem?_map,
    List.getElem?_reverse (by simpa using hi), List.length_range,
    List.getElem?_range (by omega)]
  rfl

theorem mkString_cell (f : Nat → Char) (w x : Nat) (hx : x < w) :
    (String.mk ((List.range w).map f)).toList.getD x ' ' = f x := by
  have : (String.mk ((List.range w).map f)).toList = (List.range w).map f := rfl
  rw [this, List.getD_eq_getElem?_getD, List.getElem?_map,
    List.getElem?_range (by simpa using hx)]
  rfl

theorem filled_ne_empty (sym : GraphSymbol) : filledChar sym ≠ emptyChar sym := by
  cases sym <;> decide

theorem padVals_length (values : List ℚ) (w : Nat) (h : values.length ≤ w) :
    (padVals values w).length = w := by
  simp [padVals]
  omega

theorem padVals_nonneg (values : List ℚ) (w : Nat) (hnn : ∀ v ∈ values, 0 ≤ v) :
    ∀ v ∈ padVals values w, 0 ≤ v := by
  intro v hv
  rcases List.mem_append.mp hv with h | h
  · rw [List.eq_of_mem_replicate h]
  · exact hnn v h

theorem insertByDesc_length (key : α → ℚ) (x : α) (l : List α) :
    (insertByDesc key x l).length = l.length + 1 := by
  induction l with
  | nil => rfl
  | cons y ys ih =>
    unfold insertByDesc
    by_cases h : key y ≤ key x
    · simp [h]
    · simp [h, ih]

theorem sortByDesc_length (key : α → ℚ) (l : List α) :
    (sortByDesc key l).length = l.length := by
  induction l with
  | nil => rfl
  | cons x xs ih => simp [sortByDesc, insertByDesc_length, ih]

theorem draw_processes_window (stats : List ProcStats) (scroll : Nat) :
    (draw_processes stats scroll).2 =
      (if stats.length ≤ scroll then (stats.length - 30, stats.length)
       else (scroll, min (scroll + 30) stats.length)) ∧
    (draw_processes stats scroll).1.length =
      (draw_processes stats scroll).2.2 - (draw_processes stats scroll).2.1 := by
  simp only [draw_processes, sortByDesc_length]
  by_cases h : stats.length ≤ scroll
  · simp only [if_pos h]
    refine ⟨trivial, ?_⟩
    simp [List.length_take, List.length_drop, sortByDesc_length]
  · simp only [if_neg h]
    refine ⟨trivial, ?_⟩
    simp [List.length_take, List.length_drop, sortByDesc_length]
    omega

theorem createGraph_of_ne (sym : GraphSymbol) (values : List ℚ) (w h : Nat)
    (hne : values ≠ []) (hlen : values.length ≤ w) (hmax : pyMax values ≠ 0) :
    createGraph sym values w h =
      renderRows (graphCharsList sym)
        ((padVals values w).map (levelOf (pyMax values) h)) w h := by
  unfold createGraph
  rw [if_neg (by simpa using hne)]
  have htr : truncVals values w = values := by
    unfold truncVals
    rw [if_neg (by omega)]
  rw [htr, if_neg hmax]

theorem getD_nonneg_of_mem (l : List ℚ) (x : Nat) (hx : x < l.length)
    (hnn : ∀ v ∈ l, 0 ≤ v) : 0 ≤ l.getD x 0 := by
  have : l.getD x 0 = l[x] := by
    rw [List.getD_eq_getElem?_getD, List.getElem?_eq_getElem hx]
    rfl
  rw [this]
  exact hnn _ (List.getElem_mem hx)

theorem createGraph_cell (sym : GraphSymbol) (values : List ℚ) (w h : Nat) (M : ℚ)
    (hlen : values.length ≤ w) (hnn : ∀ v ∈ values, 0 ≤ v)
    (hmem : M ∈ values) (hub : ∀ v ∈ values, v ≤ M) (hM : 0 < M)
    (x y : Nat) (hx : x < w) (hy : y < h) :
    ((createGraph sym values w h).getD (h - 1 - y) "").toList.getD x ' ' =
      (if (y : ℤ) ≤ min ((h : ℤ) - 1) ⌊(padVals values w).getD x 0 / M * (h : ℚ)⌋
       then filledChar sym else emptyChar sym) := by
  have hne : values ≠ [] := List.ne_nil_of_mem hmem
  have hmaxeq : pyMax values = M := pyMax_eq _ _ hmem hub
  rw [createGraph_of_ne sym values w h hne hlen (by rw [hmaxeq]; exact ne_of_gt hM),
    renderRows_getD _ _ _ _ _ (by omega : h - 1 - y < h)]
  have hyy : h - 1 - (h - 1 - y) = y := by omega
  rw [hyy, mkString_cell _ _ _ hx,
    getD_map_of_lt _ _ _ 0 _ (by rw [padVals_length _ _ hlen]; exact hx)]
  have hv0 : 0 ≤ (padVals values w).getD x 0 :=
    getD_nonneg_of_mem _ _ (by rw [padVals_length _ _ hlen]; exact hx)
      (padVals_nonneg _ _ hnn)
  have harg : 0 ≤ (padVals values w).getD x 0 / M * (h : ℚ) :=
    mul_nonneg (div_nonneg hv0 hM.le) (by positivity)
  simp only [levelOf, pyInt_of_nonneg _ harg, hmaxeq, filledChar, emptyChar]

theorem mkString_length (l : List Char) : (String.mk l).length = l.length := rfl

theorem truncVals_subset (values : List ℚ) (w : Nat) :
    ∀ v ∈ truncVals values w, v ∈ values := by
  intro v hv
  unfold truncVals at hv
  by_cases h : w < values.length
  · rw [if_pos h] at hv
    exact List.mem_of_mem_drop hv
  · rwa [if_neg h] at hv

theorem createGraph_all_zero (sym : GraphSymbol) (values : List ℚ) (w h : Nat)
    (hz : ∀ v ∈ values, v = 0) : createGraph sym values w h = blankGrid w h := by
  unfold createGraph
  by_cases h1 : values.isEmpty
  · rw [if_pos h1]
  · rw [if_neg h1]
    have : pyMax (truncVals values w) = 0 :=
      pyMax_of_all_zero _ (fun v hv => hz v (truncVals_subset values w v hv))
    simp only [this, if_pos]

theorem createGraph_length (sym : GraphSymbol) (values : List ℚ) (w h : Nat) :
    (createGraph sym values w h).length = h := by
  unfold createGraph
  by_cases h1 : values.isEmpty
  · simp [h1, blankGrid]
  · simp only [if_neg h1]
    by_cases h2 : pyMax (truncVals values w) = 0
    · simp [h2, blankGrid]
    · simp [h2, renderRows]

theorem createGraph_width (sym : GraphSymbol) (values : List ℚ) (w h : Nat) :
    ∀ s ∈ createGraph sym values w h, s.length = w := by
  have hblank : ∀ s ∈ blankGrid w h, s.length = w := by
    intro s hs
    rw [List.eq_of_mem_replicate hs, mkString_length, List.length_replicate]
  unfold createGraph
  by_cases h1 : values.isEmpty
  · simpa [h1] using hblank
  · simp only [if_neg h1]
    by_cases h2 : pyMax (truncVals values w) = 0
    · simpa [h2] using hblank
    · simp only [h2, if_neg, ite_false]
      intro s hs
      unfold renderRows at hs
      obtain ⟨y, _, rfl⟩ := List.mem_map.mp hs
      rw [mkString_length, List.length_map, List.length_range]

theorem truncVals_idem (values : List ℚ) (w : Nat) :
    truncVals (values.drop (values.length - w)) w = truncVals values w := by
  unfold truncVals
  by_cases h : w < values.length
  · rw [if_pos h, if_neg (by rw [List.length_drop]; omega)]
  · rw [if_neg h]
    have : values.length - w = 0 := by omega
    rw [this, List.drop_zero, if_neg h]

theorem createGraph_trunc (sym : GraphSymbol) (values : List ℚ) (w h : Nat) :
    createGraph sym values w h = createGraph sym (values.drop (values.length - w)) w h := by
  by_cases hne : values.isEmpty
  · rw [List.isEmpty_iff] at hne
    subst hne
    rw [List.drop_nil]
  · by_cases hw : w < values.length
    · have hlen : (values.drop (values.length - w)).length = w := by
        rw [List.length_drop]
        omega
      by_cases hw0 : w = 0
      · subst hw0
        have hdrop : values.drop (values.length - 0) = [] := by
          simp [List.drop_length]
        unfold createGraph
        rw [hdrop]
        simp only [List.isEmpty_nil, if_pos, if_neg hne]
        have : truncVals values 0 = [] := by
          unfold truncVals
          rw [if_pos (by omega)]
          simp [List.drop_length]
        rw [this]
        rfl
      · have hne2 : ¬ (values.drop (values.length - w)).isEmpty := by
          rw [List.isEmpty_iff]
          intro hc
          rw [hc] at hlen
          simp at hlen
          omega
        unfold createGraph
        rw [if_neg hne, if_neg hne2, truncVals_idem]
    · have : values.length - w = 0 := by omega
      rw [this, List.drop_zero]

end Lemmas

/-- C1: at zero elapsed wall-clock time the network ingest does not report
zero rates — the unguarded division raises `ZeroDivisionError`
(`Except.error`); for positive elapsed time the rate is exactly
(current − previous) / elapsed: counters 100/50 after 2 seconds from 0
give speeds 50 and 25. -/
theorem c1_network_rate_zero_elapsed :
    get_network_stats (initialEngine ⟨0, 0, 0, 0⟩ 5) ⟨100, 100, 1, 1⟩ 5 = Except.error ()
    ∧ (get_network_stats (initialEngine ⟨0, 0, 0, 0⟩ 0) ⟨100, 50, 4, 2⟩ 2).toOption.map
        (fun r => (r.2.send_speed, r.2.recv_speed)) = some (50, 25) := by
  constructor
  · norm_num [get_network_stats, initialEngine]
  · norm_num [get_network_stats, initialEngine, dequeAppend, Except.toOption]

/-- C2: typing `f`, "ssh", Enter from the Normal state does not commit a
filter: the keys `s`, `s`, `h` are intercepted by the global hotkey
dispatch (two sort toggles and a help overlay), so the filter text stays
empty and the machine ends in the Help overlay, not Normal; the same
happens with Escape in place of Enter. -/
theorem c2_filter_typing_intercepted :
    (runKeys [] initialUI sshEnterKeys).process_filter = ""
    ∧ (runKeys [] initialUI sshEnterKeys).overlay = some "help"
    ∧ ¬ ((runKeys [] initialUI sshEnterKeys).process_filter = "ssh"
        ∧ (runKeys [] initialUI sshEnterKeys).overlay = none)
    ∧ (runKeys [] initialUI sshEscKeys).process_filter = ""
    ∧ ¬ ((runKeys [] initialUI sshEscKeys).overlay = none) := by
  decide

/-- C3: one press of `s` switches the stored sort key to memory, but the
process panel still orders rows by CPU percentage descending, because
`draw_processes` hard-codes the `cpu_percent` key: with a memory-heavy
process (pid 1) and a CPU-heavy process (pid 2), pid 2 is listed first,
not pid 1 as memory ordering would require. -/
theorem c3_sort_key_not_consulted :
    (toggle_sort initialUI).process_sort_key = "memory_percent"
    ∧ ((draw_processes (filterProcs "" [procA, procB]) 0).1.map (fun p => p.pid)) = [2, 1]
    ∧ ¬ (((draw_processes (filterProcs "" [procA, procB]) 0).1.map (fun p => p.pid)) = [1, 2]) := by
  decide

/-- C8: while paused, one render-loop refresh leaves the whole engine
state (histories, per-process CPU histories, peaks, previous
counters/timestamp) unchanged and reuses the cached snapshot unmodified;
no metrics getter is invoked on this path. -/
theorem c8_paused_tick_frame :
    ∀ (eng : EngineState) (cache : Snapshot) (inp : TickSample),
      updateTick true eng cache inp = Except.ok (eng, cache) := by
  intro eng cache inp
  rfl

/-- C9 (amended): pressing a digit always sets the selected layout index
to digit−1, in range or not — the preset-count bounds check guards only
the empty apply step — and no other interaction state changes. -/
theorem c9_change_layout_always_sets :
    ∀ (presets : List String) (st : UIState) (n : ℤ),
      change_layout presets st n = { st with current_layout := n - 1 } := by
  intro presets st n
  simp [change_layout]

/-- C9 counterexample: with no configured presets, digit 3 is out of
range, yet the state changes: the layout index becomes 2. -/
theorem c9_out_of_range_layout_not_noop :
    ¬ (0 ≤ (3 : ℤ) - 1 ∧ (3 : ℤ) - 1 < (([] : List String).length : ℤ))
    ∧ change_layout [] initialUI 3 ≠ initialUI
    ∧ (change_layout [] initialUI 3).current_layout = 2 := by
  decide

/-- C10: `create_graph` is total in shape: for any series and any
width/height it returns exactly `height` strings of exactly `width`
characters, and only the last `width` values of the series influence the
result. -/
theorem c10_create_graph_total_shape :
    ∀ (sym : GraphSymbol) (values : List ℚ) (w h : Nat),
      (createGraph sym values w h).length = h
      ∧ (∀ s ∈ createGraph sym values w h, s.length = w)
      ∧ createGraph sym values w h = createGraph sym (values.drop (values.length - w)) w h :=
  fun sym values w h =>
    ⟨createGraph_length sym values w h, createGraph_width sym values w h,
     createGraph_trunc sym values w h⟩

/-- C4: for a 45-row filtered list, the offset-100 request does stick to
the end ([15,45)) and the upstream-clamped −5 request gives [0,30), but
an offset of 20 yields the window [20,45) of only 25 rows — not the
fully populated 30-row page the claim requires — because the code
re-clamps only when the start index has run past the end of the list. -/
theorem c4_scroll_window_clamp :
    (∀ stats : List ProcStats, stats.length = 45 →
        (draw_processes stats 20).2 = (20, 45)
        ∧ (draw_processes stats 20).1.length = 25
        ∧ (draw_processes stats 100).2 = (15, 45)
        ∧ (draw_processes stats (scroll_processes initialUI (-5)).process_scroll).2 = (0, 30))
    ∧ (25 : Nat) ≠ min 30 45 := by
  constructor
  · intro stats hlen
    have hs : (scroll_processes initialUI (-5)).process_scroll = 0 := by decide
    have h20 := draw_processes_window stats 20
    have h100 := draw_processes_window stats 100
    have h0 := draw_processes_window stats 0
    refine ⟨?_, ?_, ?_, ?_⟩
    · rw [h20.1, hlen]
      norm_num
    · rw [h20.2, h20.1, hlen]
      norm_num
    · rw [h100.1, hlen]
      norm_num
    · rw [hs, h0.1, hlen]
      norm_num
  · decide

/-- C4 witness: the window facts instantiated on a concrete 45-row list. -/
theorem c4_scroll_window_clamp_witness :
    (draw_processes (dummyProcs 45) 20).2 = (20, 45)
    ∧ (draw_processes (dummyProcs 45) 20).1.length = 25
    ∧ (draw_processes (dummyProcs 45) 100).2 = (15, 45)
    ∧ (draw_processes (dummyProcs 45) (scroll_processes initialUI (-5)).process_scroll).2 = (0, 30) :=
  c4_scroll_window_clamp.1 (dummyProcs 45) (by simp [dummyProcs])

/-- C5: each history buffer holds at most 100 samples and equals the most
recent min(n, 100) ingested values in arrival order: proven for the CPU
and memory buffers over any ingest sequence from the initial state, for
the network buffer per ingest step (the pair appended is the computed
rate pair; a zero elapsed time aborts the ingest and leaves the buffer
unchanged), and for the underlying bounded-append fold itself. -/
theorem c5_history_buffers :
    (∀ xs : List ℚ,
        (ingestCpuSeq (initialEngine ⟨0, 0, 0, 0⟩ 0) xs).cpu_history = xs.drop (xs.length - 100)
        ∧ (ingestCpuSeq (initialEngine ⟨0, 0, 0, 0⟩ 0) xs).cpu_history.length ≤ 100)
    ∧ (∀ xs : List ℚ,
        (ingestMemSeq (initialEngine ⟨0, 0, 0, 0⟩ 0) xs).memory_history = xs.drop (xs.length - 100)
        ∧ (ingestMemSeq (initialEngine ⟨0, 0, 0, 0⟩ 0) xs).memory_history.length ≤ 100)
    ∧ (∀ (st : EngineState) (cur : NetCounters) (now : ℚ),
        (netStep st (cur, now)).net_history =
          if now - st.prev_time = 0 then st.net_history
          else dequeAppend 100 st.net_history
            (((cur.bytes_sent - st.prev_net_io.bytes_sent : ℤ) : ℚ) / (now - st.prev_time),
             ((cur.bytes_recv - st.prev_net_io.bytes_recv : ℤ) : ℚ) / (now - st.prev_time)))
    ∧ (∀ ps : List (ℚ × ℚ),
        ps.foldl (dequeAppend 100) [] = ps.drop (ps.length - 100)
        ∧ (ps.foldl (dequeAppend 100) []).length ≤ 100) := by
  have hbound : ∀ (α : Type) (l : List α), (l.drop (l.length - 100)).length ≤ 100 := by
    intro α l
    rw [List.length_drop]
    omega
  refine ⟨?_, ?_, ?_, ?_⟩
  · intro xs
    have hinit : (initialEngine ⟨0, 0, 0, 0⟩ 0).cpu_history = [] := rfl
    rw [ingestCpuSeq_history, hinit, foldl_dequeAppend]
    exact ⟨rfl, hbound _ _⟩
  · intro xs
    have hinit : (initialEngine ⟨0, 0, 0, 0⟩ 0).memory_history = [] := rfl
    rw [ingestMemSeq_history, hinit, foldl_dequeAppend]
    exact ⟨rfl, hbound _ _⟩
  · intro st cur now
    by_cases hd : now - st.prev_time = 0
    · simp [netStep, get_network_stats, hd]
    · simp [netStep, get_network_stats, hd]
      intro h100
      exact absurd h100 (not_lt.mpr (dequeAppend_length_le _ _))
  · intro ps
    rw [foldl_dequeAppend]
    exact ⟨rfl, hbound _ _⟩

/-- C7: every successful network ingest updates each peak with `max`, so
neither peak ever decreases; feeding rates 10, 50, 30, 80, 20 (via the
counter samples of `rateSamples`) produces the peak sequence
10, 50, 50, 80, 80 in both directions. -/
theorem c7_peaks_monotone :
    (∀ (st : EngineState) (cur : NetCounters) (now : ℚ) (st2 : EngineState) (res : NetStats),
        get_network_stats st cur now = Except.ok (st2, res) →
          st.peak_send_speed ≤ st2.peak_send_speed
          ∧ st.peak_recv_speed ≤ st2.peak_recv_speed)
    ∧ (netStates (initialEngine ⟨0, 0, 0, 0⟩ 0) rateSamples).tail.map
        (fun e => e.peak_send_speed) = [10, 50, 50, 80, 80]
    ∧ (netStates (initialEngine ⟨0, 0, 0, 0⟩ 0) rateSamples).tail.map
        (fun e => e.peak_recv_speed) = [10, 50, 50, 80, 80] := by
  refine ⟨?_, ?_, ?_⟩
  · intro st cur now st2 res h
    simp only [get_network_stats] at h
    by_cases hd : now - st.prev_time = 0
    · rw [if_pos hd] at h
      exact absurd h (by simp)
    · rw [if_neg hd] at h
      simp only [Except.ok.injEq, Prod.mk.injEq] at h
      rw [← h.1]
      exact ⟨le_max_left _ _, le_max_left _ _⟩
  · norm_num [netStates, rateSamples, List.scanl, netStep, get_network_stats,
      initialEngine, dequeAppend, max_def]
  · norm_num [netStates, rateSamples, List.scanl, netStep, get_network_stats,
      initialEngine, dequeAppend, max_def]

/-- C7 witness: the monotonicity fact applied to one concrete successful
ingest. -/
theorem c7_peaks_monotone_witness :
    (initialEngine ⟨0, 0, 0, 0⟩ 0).peak_send_speed ≤ c7wState.peak_send_speed
    ∧ (initialEngine ⟨0, 0, 0, 0⟩ 0).peak_recv_speed ≤ c7wState.peak_recv_speed :=
  c7_peaks_monotone.1 (initialEngine ⟨0, 0, 0, 0⟩ 0) ⟨10, 10, 0, 0⟩ 1 c7wState c7wStats
    (by norm_num [get_network_stats, initialEngine, dequeAppend, c7wState, c7wStats, max_def])

theorem truncVals_nil (w : Nat) : truncVals [] w = [] := by
  unfold truncVals
  by_cases h : w < ([] : List ℚ).length
  · rw [if_pos h, List.drop_nil]
  · rw [if_neg h]

theorem length_truncVals_le (values : List ℚ) (w : Nat) :
    (truncVals values w).length ≤ w := by
  unfold truncVals
  by_cases h : w < values.length
  · rw [if_pos h, List.length_drop]
    omega
  · rw [if_neg h]
    omega

theorem createGraph_max_zero (sym : GraphSymbol) (values : List ℚ) (w h : Nat)
    (hmax : pyMax (truncVals values w) = 0) :
    createGraph sym values w h = blankGrid w h := by
  unfold createGraph
  by_cases h1 : values.isEmpty
  · rw [if_pos h1]
  · rw [if_neg h1]
    simp only [hmax, if_pos]

theorem createGraph_cell_trunc (sym : GraphSymbol) (values : List ℚ) (w h : Nat)
    (hmax : pyMax (truncVals values w) ≠ 0) (x y : Nat) (hx : x < w) (hy : y < h) :
    ((createGraph sym values w h).getD (h - 1 - y) "").toList.getD x ' ' =
      (if (y : ℤ) ≤ min ((h : ℤ) - 1)
          (pyInt ((padVals (truncVals values w) w).getD x 0
            / pyMax (truncVals values w) * (h : ℚ)))
       then filledChar sym else emptyChar sym) := by
  have hne : ¬ values.isEmpty := by
    intro hc
    rw [List.isEmpty_iff] at hc
    subst hc
    rw [truncVals_nil] at hmax
    exact hmax rfl
  unfold createGraph
  rw [if_neg hne, if_neg hmax,
    renderRows_getD _ _ _ _ _ (by omega : h - 1 - y < h)]
  rw [show h - 1 - (h - 1 - y) = y from by omega,
    mkString_cell _ _ _ hx,
    getD_map_of_lt _ _ _ 0 _
      (by rw [padVals_length _ _ (length_truncVals_le values w)]; exact hx)]
  simp only [levelOf, filledChar, emptyChar]

theorem string_ext3 (s : String) (h : s.length = 3) :
    s = String.mk [s.toList.getD 0 ' ', s.toList.getD 1 ' ', s.toList.getD 2 ' '] := by
  cases s with
  | mk l =>
    have hl : l.length = 3 := h
    match l, hl with
    | [a, b, c], _ => rfl

theorem getD_mem_of_lt (l : List α) (i : Nat) (d : α) (h : i < l.length) :
    l.getD i d ∈ l := by
  rw [List.getD_eq_getElem?_getD, List.getElem?_eq_getElem h]
  exact List.getElem_mem h

theorem createGraph_example_rows (sym : GraphSymbol) (hh : Nat) (h3 : 3 ≤ hh) :
    (createGraph sym [0, (hh : ℚ), 2 * (hh : ℚ)] 3 hh).getD 0 ""
        = String.mk [emptyChar sym, emptyChar sym, filledChar sym]
    ∧ (createGraph sym [0, (hh : ℚ), 2 * (hh : ℚ)] 3 hh).getD (hh - 1) ""
        = String.mk [filledChar sym, filledChar sym, filledChar sym] := by
  have h3' : (3 : ℤ) ≤ (hh : ℤ) := by exact_mod_cast h3
  have h3q : (3 : ℚ) ≤ (hh : ℚ) := by exact_mod_cast h3
  have hMq : (0 : ℚ) < 2 * (hh : ℚ) := by linarith
  have hmem : (2 * (hh : ℚ)) ∈ ([0, (hh : ℚ), 2 * (hh : ℚ)] : List ℚ) := by simp
  have hub : ∀ v ∈ ([0, (hh : ℚ), 2 * (hh : ℚ)] : List ℚ), v ≤ 2 * (hh : ℚ) := by
    intro v hv
    simp at hv
    rcases hv with rfl | rfl | rfl <;> linarith
  have hnn3 : ∀ v ∈ ([0, (hh : ℚ), 2 * (hh : ℚ)] : List ℚ), 0 ≤ v := by
    intro v hv
    simp at hv
    rcases hv with rfl | rfl | rfl <;> linarith
  have hlen3 : ([0, (hh : ℚ), 2 * (hh : ℚ)] : List ℚ).length ≤ 3 := by simp
  have hpad : padVals [0, (hh : ℚ), 2 * (hh : ℚ)] 3 = [0, (hh : ℚ), 2 * (hh : ℚ)] := by
    simp [padVals]
  have hf0 : ⌊(0 : ℚ) / (2 * (hh : ℚ)) * (hh : ℚ)⌋ = 0 := by norm_num
  have e1 : (hh : ℚ) / (2 * (hh : ℚ)) * (hh : ℚ) = (hh : ℚ) / 2 := by
    have hne : (hh : ℚ) ≠ 0 := by linarith
    field_simp
    ring
  have hf1lt : ⌊(hh : ℚ) / (2 * (hh : ℚ)) * (hh : ℚ)⌋ < (hh : ℤ) - 1 := by
    rw [e1]
    apply Int.floor_lt.mpr
    push_cast
    linarith
  have hf1ge : (0 : ℤ) ≤ ⌊(hh : ℚ) / (2 * (hh : ℚ)) * (hh : ℚ)⌋ := by
    rw [e1]
    apply Int.floor_nonneg.mpr
    positivity
  have hf2 : ⌊(2 * (hh : ℚ)) / (2 * (hh : ℚ)) * (hh : ℚ)⌋ = (hh : ℤ) := by
    rw [div_self (ne_of_gt hMq), one_mul, Int.floor_natCast]
  have hm0 : min ((hh : ℤ) - 1) ⌊(0 : ℚ) / (2 * (hh : ℚ)) * (hh : ℚ)⌋ = 0 := by
    rw [hf0]
    exact min_eq_right (by omega)
  have hm2 : min ((hh : ℤ) - 1) ⌊(2 * (hh : ℚ)) / (2 * (hh : ℚ)) * (hh : ℚ)⌋ = (hh : ℤ) - 1 := by
    rw [hf2]
    exact min_eq_left (by omega)
  have hm1top : ¬ ((hh : ℤ) - 1 ≤ min ((hh : ℤ) - 1) ⌊(hh : ℚ) / (2 * (hh : ℚ)) * (hh : ℚ)⌋) := by
    intro hcon
    exact absurd (le_trans hcon (min_le_right _ _)) (not_le.mpr hf1lt)
  have hm1bot : (0 : ℤ) ≤ min ((hh : ℤ) - 1) ⌊(hh : ℚ) / (2 * (hh : ℚ)) * (hh : ℚ)⌋ :=
    le_min (by omega) hf1ge
  have hcast : ((hh - 1 : Nat) : ℤ) = (hh : ℤ) - 1 := by
    have h1 : 1 ≤ hh := by omega
    push_cast [h1]
    ring
  have hcell := fun (x y : Nat) (hx : x < 3) (hy : y < hh) =>
    createGraph_cell sym [0, (hh : ℚ), 2 * (hh : ℚ)] 3 hh (2 * (hh : ℚ))
      hlen3 hnn3 hmem hub hMq x y hx hy
  have hglen := createGraph_length sym [0, (hh : ℚ), 2 * (hh : ℚ)] 3 hh
  have hhpos : 0 < hh := by omega
  have hrow : ∀ i : Nat, i < hh →
      ((createGraph sym [0, (hh : ℚ), 2 * (hh : ℚ)] 3 hh).getD i "").length = 3 := by
    intro i hi
    exact createGraph_width sym _ 3 hh _
      (getD_mem_of_lt _ i "" (by rw [hglen]; exact hi))
  have htopcell : ∀ x : Nat, x < 3 →
      (((createGraph sym [0, (hh : ℚ), 2 * (hh : ℚ)] 3 hh).getD 0 "").toList.getD x ' ')
        = (if ((hh - 1 : Nat) : ℤ) ≤
              min ((hh : ℤ) - 1)
                ⌊(padVals [0, (hh : ℚ), 2 * (hh : ℚ)] 3).getD x 0 / (2 * (hh : ℚ)) * (hh : ℚ)⌋
           then filledChar sym else emptyChar sym) := by
    intro x hx
    have h := hcell x (hh - 1) hx (by omega)
    rwa [show hh - 1 - (hh - 1) = 0 from by omega] at h
  have hbotcell : ∀ x : Nat, x < 3 →
      (((createGraph sym [0, (hh : ℚ), 2 * (hh : ℚ)] 3 hh).getD (hh - 1) "").toList.getD x ' ')
        = (if ((0 : Nat) : ℤ) ≤
              min ((hh : ℤ) - 1)
                ⌊(padVals [0, (hh : ℚ), 2 * (hh : ℚ)] 3).getD x 0 / (2 * (hh : ℚ)) * (hh : ℚ)⌋
           then filledChar sym else emptyChar sym) := by
    intro x hx
    have h := hcell x 0 hx (by omega)
    rwa [show hh - 1 - 0 = hh - 1 from by omega] at h
  constructor
  · rw [string_ext3 _ (hrow 0 hhpos),
      htopcell 0 (by omega), htopcell 1 (by omega), htopcell 2 (by omega), hpad]
    rw [show ([0, (hh : ℚ), 2 * (hh : ℚ)] : List ℚ).getD 0 0 = 0 from rfl,
      show ([0, (hh : ℚ), 2 * (hh : ℚ)] : List ℚ).getD 1 0 = (hh : ℚ) from rfl,
      show ([0, (hh : ℚ), 2 * (hh : ℚ)] : List ℚ).getD 2 0 = 2 * (hh : ℚ) from rfl]
    rw [if_neg (by rw [hcast, hm0]; omega),
      if_neg (by rw [hcast]; exact hm1top),
      if_pos (by rw [hcast, hm2])]
  · rw [string_ext3 _ (hrow (hh - 1) (by omega)),
      hbotcell 0 (by omega), hbotcell 1 (by omega), hbotcell 2 (by omega), hpad]
    rw [show ([0, (hh : ℚ), 2 * (hh : ℚ)] : List ℚ).getD 0 0 = 0 from rfl,
      show ([0, (hh : ℚ), 2 * (hh : ℚ)] : List ℚ).getD 1 0 = (hh : ℚ) from rfl,
      show ([0, (hh : ℚ), 2 * (hh : ℚ)] : List ℚ).getD 2 0 = 2 * (hh : ℚ) from rfl]
    rw [if_pos (by rw [Nat.cast_zero, hm0]),
      if_pos (by rw [Nat.cast_zero]; exact hm1bot),
      if_pos (by rw [Nat.cast_zero, hm2]; omega)]

/-- C6 (amended): for every input series and requested width/height, the
series is first truncated to its last `width` values (the visible
window, zero-left-padded to the width): if the series is empty or the
window's maximum is zero — in particular whenever all values are zero —
the graph is a blank grid of the requested width and height; otherwise
each padded window value v is normalized to
level = min(height−1, int(v / max(window) · height)), where `int` is
Python's truncation toward zero, and the cell at column x, height y
(rows counted from the bottom, so row index height−1−y from the top) is
filled iff level(x) ≥ y; for the series [0, H, 2·H] at height H ≥ 3 the
bottom row is entirely filled while the top row is filled only at the
maximum element's column. -/
theorem c6_graph_rendering (sym : GraphSymbol) (values : List ℚ) (w h : Nat) :
    ((∀ v ∈ values, v = 0) → createGraph sym values w h = blankGrid w h)
    ∧ (pyMax (truncVals values w) = 0 → createGraph sym values w h = blankGrid w h)
    ∧ (pyMax (truncVals values w) ≠ 0 →
        ∀ x y : Nat, x < w → y < h →
          (((createGraph sym values w h).getD (h - 1 - y) "").toList.getD x ' ' = filledChar sym
            ↔ (y : ℤ) ≤ min ((h : ℤ) - 1)
                (pyInt ((padVals (truncVals values w) w).getD x 0
                  / pyMax (truncVals values w) * (h : ℚ)))))
    ∧ (∀ hh : Nat, 3 ≤ hh →
        (createGraph sym [0, (hh : ℚ), 2 * (hh : ℚ)] 3 hh).getD 0 ""
            = String.mk [emptyChar sym, emptyChar sym, filledChar sym]
        ∧ (createGraph sym [0, (hh : ℚ), 2 * (hh : ℚ)] 3 hh).getD (hh - 1) ""
            = String.mk [filledChar sym, filledChar sym, filledChar sym]) := by
  refine ⟨createGraph_all_zero sym values w h, createGraph_max_zero sym values w h,
    ?_, createGraph_example_rows sym⟩
  intro hmax x y hx hy
  rw [createGraph_cell_trunc sym values w h hmax x y hx hy]
  by_cases hc : (y : ℤ) ≤ min ((h : ℤ) - 1)
      (pyInt ((padVals (truncVals values w) w).getD x 0
        / pyMax (truncVals values w) * (h : ℚ)))
  · rw [if_pos hc]
    exact iff_of_true rfl hc
  · rw [if_neg hc]
    exact iff_of_false (fun he => filled_ne_empty sym he.symm) hc

/-- C6 counterexample, one instance per divergence of the claim from the
code: (1) at height 2 the series [0, 2, 4] fills the top row at the
middle column too (its level min(1, int(2/4·2)) = 1 reaches the top), so
"only at the maximum element's column" fails for H ≤ 2; (2) for the
series [−1, 4] at width 2, height 2 the code truncates int(−1/4·2) = 0
toward zero and fills the bottom-left cell, while the claim's floor
formula gives level min(1, ⌊−1/2⌋) = −1 < 0, i.e. unfilled; (3) for the
over-width series [100, 10, 10] at width 2 the code normalizes by the
visible window's maximum 10 and fills the whole grid including the top
row, while the claim's max(series) = 100 gives level min(3, ⌊10/100·4⌋)
= 0, leaving the top row unfilled; (4) the series [−1, 0] is not all
zero, yet the code renders the blank grid (its window maximum is 0), so
the claim's all-zero/otherwise dichotomy is drawn at the wrong line. -/
theorem c6_graph_counterexample :
    ((createGraph GraphSymbol.braille [0, 2, 4] 3 2).getD 0 "" = String.mk ['⠀', '⠿', '⠿']
      ∧ ¬ ((createGraph GraphSymbol.braille [0, 2, 4] 3 2).getD 0 ""
            = String.mk ['⠀', '⠀', '⠿']))
    ∧ (((createGraph GraphSymbol.braille [-1, 4] 2 2).getD 1 "").toList.getD 0 ' '
          = filledChar GraphSymbol.braille
      ∧ ¬ ((0 : ℤ) ≤ min ((2 : ℤ) - 1) ⌊(-1 : ℚ) / 4 * (2 : ℚ)⌋))
    ∧ ((createGraph GraphSymbol.braille [100, 10, 10] 2 4).getD 0 "" = String.mk ['⠿', '⠿']
      ∧ ¬ ((3 : ℤ) ≤ min ((4 : ℤ) - 1) ⌊(10 : ℚ) / 100 * (4 : ℚ)⌋))
    ∧ (createGraph GraphSymbol.braille [-1, 0] 2 2 = blankGrid 2 2
      ∧ ¬ (∀ v ∈ ([-1, 0] : List ℚ), v = 0)) := by
  refine ⟨⟨?_, ?_⟩, ⟨?_, ?_⟩, ⟨?_, ?_⟩, ⟨?_, ?_⟩⟩
  · norm_num [createGraph, truncVals, padVals, pyMax, levelOf, pyInt, renderRows, blankGrid,
      graphCharsList, brailleChars, List.range_succ, Int.floor_one, max_def]
  · have h : (createGraph GraphSymbol.braille [0, 2, 4] 3 2).getD 0 ""
        = String.mk ['⠀', '⠿', '⠿'] := by
      norm_num [createGraph, truncVals, padVals, pyMax, levelOf, pyInt, renderRows, blankGrid,
        graphCharsList, brailleChars, List.range_succ, Int.floor_one, max_def]
    rw [h]
    decide
  · have hmax : pyMax (truncVals [-1, 4] 2) = 4 := by
      norm_num [truncVals, pyMax, max_def]
    have hcell := createGraph_cell_trunc GraphSymbol.braille [-1, 4] 2 2
      (by rw [hmax]; norm_num) 0 0 (by omega) (by omega)
    rw [show 2 - 1 - 0 = 1 from rfl] at hcell
    rw [hcell, hmax]
    have hpad : (padVals (truncVals [-1, 4] 2) 2).getD 0 0 = -1 := by
      norm_num [truncVals, padVals]
    rw [hpad]
    have harg : (-1 : ℚ) / 4 * (2 : ℚ) = -(1 / 2) := by norm_num
    have hceil : ⌈(-(1 / 2) : ℚ)⌉ = 0 := by
      have h1 : ⌈(-(1 / 2) : ℚ)⌉ ≤ 0 := Int.ceil_le.mpr (by norm_num)
      have h2 : (-1 : ℤ) < ⌈(-(1 / 2) : ℚ)⌉ := Int.lt_ceil.mpr (by norm_num)
      omega
    have hpy : pyInt ((-1 : ℚ) / 4 * ((2 : Nat) : ℚ)) = 0 := by
      unfold pyInt
      rw [if_neg (by norm_num), show ((-1 : ℚ) / 4 * ((2 : Nat) : ℚ)) = -(1 / 2) by norm_num,
        hceil]
    rw [hpy]
    norm_num
  · norm_num
  · norm_num [createGraph, truncVals, padVals, pyMax, levelOf, pyInt, renderRows, blankGrid,
      graphCharsList, brailleChars, List.range_succ, max_def]
  · norm_num
  · exact createGraph_max_zero GraphSymbol.braille [-1, 0] 2 2
      (by norm_num [truncVals, pyMax, max_def])
  · intro hall
    have := hall (-1) (by simp)
    norm_num at this

/-- C6 witness: the amended theorem applied at a concrete input — an
all-zero two-sample series renders the 5×4 blank grid. -/
theorem c6_graph_rendering_witness :
    createGraph GraphSymbol.braille [0, 0] 5 4 = blankGrid 5 4 :=
  (c6_graph_rendering GraphSymbol.braille [0, 0] 5 4).1
    (by intro v hv; simp at hv; rcases hv with rfl | rfl <;> rfl)
